import Mathlib

/-!
Verification of the log relay broadcast engine of `grpc-logger`.

The definitions below are a shallow embedding of the Rust sources:
  - `src/server_build.rs`: `LoggingService` (client registry, `broadcast_log`,
    `broadcast_log_filtered`, `subscribe_to_logs`, `is_internal_message`);
  - `src/grpc/layer.rs`: `GrpcLayer::on_event` (the event adapter);
  - `examples/client.rs` / `src/bin/test_client.rs`: `connect_with_retry`.

Conventions of the embedding:
  - the tonic `mpsc::UnboundedSender` channel of a subscriber is a `Channel`:
    a Boolean `alive` flag (whether the receiver half still exists) together
    with the queue of messages so far enqueued; `send` succeeds exactly when
    the receiver is alive, mirroring `UnboundedSender::send`;
  - the `HashMap<String, Sender>` registry is an association list with
    pairwise-distinct keys (`keysNodup`); `HashMap::insert` / `remove`
    become `register` / `unregister`;
  - the `f32` backoff arithmetic of the retry loop is modelled over `ℚ`
    (exact arithmetic; `1.5` is exactly representable and the modelled
    quantities stay far below any rounding-relevant magnitude);
  - async effects (lock acquisition order, task spawning) are sequentialised:
    `broadcast_log` runs its delivery pass over the locked snapshot and then
    applies the removals in a second pass, exactly as the source does.
-/

namespace GrpcLogger

/-- One relayed log record, embedding the protobuf-generated `LogMessage`
struct as it is used throughout `src/server_build.rs` and
`src/grpc/layer.rs`: `message` is the one required field, everything else is
`Option`al. -/
structure LogMessage where
  timestamp : Option String
  level : Option String
  message : String
  target : Option String
  thread_id : Option String
  file : Option String
  line : Option String
  server_id : Option String
  target_client_id : Option String
deriving DecidableEq, Repr

/-- The fixed transport-namespace prefixes of `is_internal_message`
(`src/server_build.rs:344-352`). -/
def INTERNAL_PREFIXES : List String :=
  ["h2::", "tonic::", "hyper::", "tower::", "runtime::", "http::",
   "Connection\x7bpeer="]

/-- The fixed transport-chatter substrings of `is_internal_message`
(`src/server_build.rs:354-364`). -/
def INTERNAL_PATTERNS : List String :=
  ["send frame=", "transition_after", "writing frame=", "encoding RESET",
   "flushing buffer", "connection established", "connection closed",
   "send", "poll"]

/-- Substring search over character lists, embedding Rust `str::contains`. -/
def containsSub (pat : List Char) : List Char → Bool
  | [] => pat.isEmpty
  | c :: t => pat.isPrefixOf (c :: t) || containsSub pat t

/-- Rust `str::contains`: `strContains s pat` holds when `pat` occurs as a
contiguous substring of `s`. -/
def strContains (s pat : String) : Bool :=
  containsSub pat.data s.data

/-- Rust `str::starts_with`, over the character lists of the strings. -/
def strStartsWith (s pat : String) : Bool :=
  pat.data.isPrefixOf s.data

/-- Embeds `is_internal_message` (`src/server_build.rs:343-373`): a message
is internal when its target starts with one of the fixed prefixes, or its
text contains one of the fixed patterns. -/
def is_internal_message (log : LogMessage) : Bool :=
  (match log.target with
   | some target => INTERNAL_PREFIXES.any (fun p => strStartsWith target p)
   | none => false)
  || INTERNAL_PATTERNS.any (fun p => strContains log.message p)

/-- A subscriber's delivery channel: the embedding of one
`mpsc::UnboundedSender<LogMessage>` stored in the registry
(`src/server_build.rs:27`). `alive` records whether the receiver half still
exists; `queue` is the sequence of messages enqueued so far. -/
structure Channel where
  alive : Bool
  queue : List LogMessage
deriving DecidableEq, Repr

/-- The client registry `HashMap<String, UnboundedSender<LogMessage>>`
(`src/server_build.rs:27`), embedded as an association list whose keys are
kept pairwise distinct. -/
abbrev Clients := List (String × Channel)

/-- Registry keys are pairwise distinct — the association-list counterpart
of the `HashMap` key-uniqueness invariant. -/
def keysNodup (clients : Clients) : Prop :=
  (clients.map Prod.fst).Nodup

/-- Registry lookup, embedding `HashMap::get`. -/
def lookupC : Clients → String → Option Channel
  | [], _ => none
  | e :: rest, cid => if e.1 = cid then some e.2 else lookupC rest cid

/-- Number of registry entries stored under a given key. -/
def countKey (clients : Clients) (cid : String) : Nat :=
  (clients.filter (fun e => decide (e.1 = cid))).length

/-- Embeds `UnboundedSender::send`: succeeds (enqueueing the message) exactly
when the receiver half is still alive, and fails leaving the channel
untouched otherwise. Returns the updated channel and the success flag. -/
def send (ch : Channel) (log : LogMessage) : Channel × Bool :=
  if ch.alive then ({ alive := true, queue := ch.queue ++ [log] }, true)
  else (ch, false)

/-- Embeds `HashMap::insert` (`src/server_build.rs:281`): inserts or replaces
the entry for `cid` — the registry `register` operation. -/
def register (clients : Clients) (cid : String) (ch : Channel) : Clients :=
  (cid, ch) :: clients.filter (fun e => decide (e.1 ≠ cid))

/-- Embeds `HashMap::remove` (`src/server_build.rs:211`): removes the entry
for `cid` if present — the registry `unregister` operation. -/
def unregister (clients : Clients) (cid : String) : Clients :=
  clients.filter (fun e => decide (e.1 ≠ cid))

/-- The per-entry delivery decision of the `broadcast_log` loop
(`src/server_build.rs:187-204`): a targeted message is sent only to the
entry whose key equals the target id; an untargeted message is sent when
`log_all` is set or the message is not internal. -/
def shouldSend (logAll : Bool) (log : LogMessage) (cid : String) : Bool :=
  match log.target_client_id with
  | some t => decide (t = cid)
  | none => logAll || !is_internal_message log

/-- One iteration of the `broadcast_log` delivery loop on a single registry
entry: attempt the send when `shouldSend` holds, and flag the entry as dead
when that send fails (`src/server_build.rs:187-204`). -/
def deliverEntry (logAll : Bool) (log : LogMessage) (e : String × Channel) :
    (String × Channel) × Bool :=
  if shouldSend logAll log e.1 then
    let r := send e.2 log
    ((e.1, r.1), !r.2)
  else (e, false)

/-- The full delivery pass of `broadcast_log` over the locked snapshot:
returns the updated entries together with the `dead_clients` list collected
along the way (`src/server_build.rs:180-204`). -/
def deliverPass (logAll : Bool) (log : LogMessage) : Clients → Clients × List String
  | [] => ([], [])
  | e :: rest =>
    let r := deliverEntry logAll log e
    let rr := deliverPass logAll log rest
    (r.1 :: rr.1, if r.2 then e.1 :: rr.2 else rr.2)

/-- The cleanup pass of `broadcast_log`: re-lock the registry and remove
every collected dead client (`src/server_build.rs:207-214`). -/
def removeAll (clients : Clients) (dead : List String) : Clients :=
  clients.filter (fun e => decide (e.1 ∉ dead))

/-- The delivery-then-cleanup core of `broadcast_log`: the loop over the
locked snapshot followed by the separately-locked removal pass. -/
def broadcastCore (logAll : Bool) (log : LogMessage) (clients : Clients) : Clients :=
  let r := deliverPass logAll log clients
  removeAll r.1 r.2

/-- Embeds `LoggingService::broadcast_log` (`src/server_build.rs:177-215`):
drop internal messages outright unless `log_all` is set, otherwise run the
delivery pass and then remove the dead clients. The registry state is the
explicit `clients` argument; the returned registry is the post-call state. -/
def broadcast_log (logAll : Bool) (log : LogMessage) (clients : Clients) : Clients :=
  if !logAll && is_internal_message log then clients
  else broadcastCore logAll log clients

/-- Embeds `LoggingService::broadcast_log_filtered`
(`src/server_build.rs:170-175`): look up the one named client and send to it,
ignoring the send result; no internal-message check and no cleanup. -/
def broadcast_log_filtered (clients : Clients) (log : LogMessage)
    (client_id : String) : Clients :=
  clients.map (fun e => if e.1 = client_id then (e.1, (send e.2 log).1) else e)

/-- A message was freshly delivered to `cid` between the two registry
states: the entry exists in both and its queue grew by exactly that
message. -/
def deliveredTo (old new : Clients) (cid : String) (log : LogMessage) : Prop :=
  ∃ ch ch', lookupC old cid = some ch ∧ lookupC new cid = some ch' ∧
    ch'.queue = ch.queue ++ [log]

/-- The `ClientType` enum of the subscribe request
(`logging.ClientType`, resolved in `src/server_build.rs:248-249` with
`unwrap_or(Unknown)` for unrecognised values). -/
inductive ClientType where
  | server
  | webClient
  | unknown
deriving DecidableEq, Repr

/-- The acknowledgement message `subscribe_to_logs` synthesizes for a web
client (`src/server_build.rs:292-302`); `now` stands for the
`chrono::Utc::now().to_rfc3339()` rendering. Note that the source sets
`target_client_id` to `None`. -/
def testMessage (client_id now : String) : LogMessage :=
  { target_client_id := none
    server_id := none
    timestamp := some now
    level := some "INFO"
    message := "Test message for web client " ++ client_id
    target := none
    thread_id := none
    file := none
    line := none }

/-- A fresh subscriber channel, as created by `mpsc::unbounded_channel()` at
subscribe time (`src/server_build.rs:273`): receiver alive, queue empty. -/
def freshChannel : Channel :=
  { alive := true, queue := [] }

/-- Embeds the registry-relevant effect of `LoggingService::subscribe_to_logs`
(`src/server_build.rs:234-340`): insert the caller's fresh channel under its
`client_id`, then — only for `ClientType::WebClient` — pass the synthesized
acknowledgement to `broadcast_log`. The returned registry is the state after
the handler returns its stream. -/
def subscribe_to_logs (logAll : Bool) (clients : Clients) (client_id : String)
    (client_type : ClientType) (now : String) : Clients :=
  let clients1 := register clients client_id freshChannel
  if client_type = ClientType.webClient then
    broadcast_log logAll (testMessage client_id now) clients1
  else clients1

/-- An atomic registry operation, for stating registry-lifecycle claims. -/
inductive RegOp where
  | register (cid : String) (ch : Channel)
  | unregister (cid : String)
deriving DecidableEq, Repr

/-- Interpretation of one registry operation. -/
def applyOp (clients : Clients) : RegOp → Clients
  | RegOp.register cid ch => register clients cid ch
  | RegOp.unregister cid => unregister clients cid

/-- Interpretation of a sequence of registry operations. -/
def applyOps (clients : Clients) (ops : List RegOp) : Clients :=
  ops.foldl applyOp clients

/-- The registry operations `subscribe_to_logs` performs when a subscription
is set up: exactly the one `HashMap::insert` at `src/server_build.rs:281`. -/
def subscriptionRegOps (cid : String) : List RegOp :=
  [RegOp.register cid freshChannel]

/-- The registry operations the protocol layer performs when a subscriber's
stream terminates: the termination path — the `map`/`chain` closures ending
in the `Status::ok("Stream complete")` sentinel
(`src/server_build.rs:312-335`) — touches the `clients` map nowhere, so the
list is empty. -/
def streamTerminationRegOps (_cid : String) : List RegOp :=
  []

/-- The field-inclusion configuration (`LogFieldsConfig`,
`src/config.rs`). -/
structure LogFieldsConfig where
  include_thread_id : Bool
  include_target : Bool
  include_file : Bool
  include_line : Bool
  include_timestamp : Bool
deriving DecidableEq, Repr

/-- A raw instrumentation event as observed by `GrpcLayer::on_event`
(`src/grpc/layer.rs:17-93`): the metadata of the `tracing` event plus the
strings extracted by the field visitor. `message` is the rendered text
collected by `LogVisitor`; `client_id` is the optional `client_id` field of
the event; `now` and `thread_id` stand for the ambient clock and thread
renderings. -/
structure RawEvent where
  level : String
  message : String
  target : String
  file : Option String
  line : Option Nat
  thread_id : String
  client_id : Option String
  now : String
deriving DecidableEq, Repr

/-- The target-prefix filter list of `GrpcLayer::on_event`
(`src/grpc/layer.rs:23-30`): every entry is commented out in the source, so
the list is empty. -/
def GRPC_LAYER_INTERNAL_PREFIXES : List String := []

/-- The message-pattern filter list of `GrpcLayer::on_event`
(`src/grpc/layer.rs:66-84`): every entry is commented out in the source, so
the list is empty. -/
def GRPC_LAYER_FILTERED_PATTERNS : List String := []

/-- Embeds the Rust test `message.trim().is_empty()`
(`src/grpc/layer.rs:87`): the trimmed string is empty exactly when every
character of the string is whitespace. -/
def trimIsEmpty (s : String) : Bool :=
  s.data.all (fun c => c.isWhitespace)

/-- The `LogMessage` construction of `GrpcLayer::on_event`
(`src/grpc/layer.rs:95-125`): each optional provenance field is populated
exactly when its inclusion flag is set; `file` defaults to `"unknown"` and
`line` to `0` when the event lacks them; `target_client_id` is always
`None`. A pure, total mapping. -/
def mkLogMessage (cfg : LogFieldsConfig) (server_id : Option String)
    (e : RawEvent) : LogMessage :=
  { timestamp := if cfg.include_timestamp then some e.now else none
    target_client_id := none
    level := some e.level
    message := e.message
    server_id := server_id
    target := if cfg.include_target then some e.target else none
    thread_id := if cfg.include_thread_id then some e.thread_id else none
    file := if cfg.include_file then some (e.file.getD "unknown") else none
    line := if cfg.include_line then some (toString (e.line.getD 0)) else none }

/-- Which broadcast the relay layer initiates for an event
(`src/grpc/layer.rs:130-144`): `broadcast_log_filtered` when the event
carried a `client_id` field, plain `broadcast_log` otherwise. -/
inductive Route where
  | filtered (client_id : String)
  | broadcast
deriving DecidableEq, Repr

/-- Embeds `GrpcLayer::on_event` (`src/grpc/layer.rs:17-145`) up to the
point where a broadcast task is spawned: `none` when the event is dropped by
the prefix filter or by the empty-or-filtered-message check
(`src/grpc/layer.rs:86-93`), otherwise the constructed `LogMessage` together
with the broadcast route chosen for it. -/
def on_event (cfg : LogFieldsConfig) (server_id : Option String)
    (e : RawEvent) : Option (LogMessage × Route) :=
  if GRPC_LAYER_INTERNAL_PREFIXES.any (fun p => strStartsWith e.target p) then none
  else if trimIsEmpty e.message ||
      GRPC_LAYER_FILTERED_PATTERNS.any (fun p => strContains e.message p) then
    none
  else
    some (mkLogMessage cfg server_id e,
      match e.client_id with
      | some cid => Route.filtered cid
      | none => Route.broadcast)

/-- Outcome of the connect-with-retry loop: how many connection attempts
were made, and the backoff delays (in seconds) slept between them. `ok` is
a successful connection, `err` surfaces the last connect error. -/
inductive RetryResult where
  | ok (attempts : Nat) (delays : List ℚ)
  | err (attempts : Nat) (delays : List ℚ)
deriving DecidableEq, Repr

/-- The body of the `connect_with_retry` loop (`examples/client.rs:13-50`
and, with constant parameters, `src/bin/test_client.rs:16-40`), embedded as
structural recursion on the remaining retry budget.

Correspondence with the source: `attempt` is the value of `retry_count`
before the current attempt (attempts are numbered from `0`), and
`remaining = max_retries - attempt`. On a failure the source increments
`retry_count` and returns the error when `retry_count > max_retries` —
i.e. exactly when the budget was `0` — and otherwise sleeps
`base_delay * 1.5 ^ retry_count` and loops. `fails n` tells whether the
`n`-th connection attempt fails; `delays` accumulates the sleeps. -/
def connectLoop (base : ℚ) (fails : Nat → Bool) :
    Nat → Nat → List ℚ → RetryResult
  | 0, attempt, delays =>
    if fails attempt then RetryResult.err (attempt + 1) delays
    else RetryResult.ok (attempt + 1) delays
  | remaining + 1, attempt, delays =>
    if fails attempt then
      connectLoop base fails remaining (attempt + 1)
        (delays ++ [base * (3 / 2) ^ (attempt + 1)])
    else RetryResult.ok (attempt + 1) delays

/-- Embeds `connect_with_retry`: start with `retry_count = 0`, a full budget
of `max_retries` retries, and no sleeps performed yet. -/
def connect_with_retry (max_retries : Nat) (base : ℚ) (fails : Nat → Bool) :
    RetryResult :=
  connectLoop base fails max_retries 0 []

/-- A connection endpoint that is never reachable: every attempt fails. -/
def alwaysFail : Nat → Bool := fun _ => true


/-- A plain, untargeted, non-internal log message, used as a concrete test
vector in witnesses. -/
def plainMsg : LogMessage :=
  { timestamp := none, level := none, message := "hello", target := none,
    thread_id := none, file := none, line := none, server_id := none,
    target_client_id := none }

/-- The plain message addressed to the client whose id is `"a"`. -/
def msgTargetA : LogMessage :=
  { plainMsg with target_client_id := some "a" }

/-- A message originating from the transport stack: its target starts with
the `h2::` prefix, so `is_internal_message` classifies it as internal. -/
def internalMsg : LogMessage :=
  { plainMsg with message := "x", target := some "h2::client" }

/-- A live subscriber channel with an empty queue. -/
def aliveCh : Channel := { alive := true, queue := [] }

/-- A subscriber channel whose receiver half is gone. -/
def deadCh : Channel := { alive := false, queue := [] }

/-- A field-inclusion configuration with every optional field enabled. -/
def fullCfg : LogFieldsConfig :=
  { include_thread_id := true, include_target := true, include_file := true,
    include_line := true, include_timestamp := true }

/-- A raw event whose rendered message is whitespace only. -/
def wsEvent : RawEvent :=
  { level := "INFO", message := "  ", target := "app", file := none,
    line := none, thread_id := "th", client_id := none, now := "now" }

/-! Helper lemmas about the registry and the broadcast engine. -/

theorem deliverEntry_fst (logAll : Bool) (log : LogMessage) (e : String × Channel) :
    (deliverEntry logAll log e).1.1 = e.1 := by
  unfold deliverEntry
  split <;> rfl

theorem keys_deliverPass (logAll : Bool) (log : LogMessage) :
    ∀ l : Clients, (deliverPass logAll log l).1.map Prod.fst = l.map Prod.fst := by
  intro l
  induction l with
  | nil => rfl
  | cons e rest ih =>
    simp only [deliverPass, List.map_cons, deliverEntry_fst, ih]

theorem dead_subset (logAll : Bool) (log : LogMessage) :
    ∀ l : Clients, ∀ x ∈ (deliverPass logAll log l).2, x ∈ l.map Prod.fst := by
  intro l
  induction l with
  | nil => intro x hx; cases hx
  | cons e rest ih =>
    intro x hx
    simp only [deliverPass] at hx
    split at hx
    · rcases List.mem_cons.mp hx with h | h
      · exact List.mem_cons.mpr (Or.inl (h ▸ rfl))
      · exact List.mem_cons.mpr (Or.inr (ih x h))
    · exact List.mem_cons.mpr (Or.inr (ih x hx))

theorem lookupC_eq_none {cid : String} :
    ∀ {l : Clients}, cid ∉ l.map Prod.fst → lookupC l cid = none := by
  intro l
  induction l with
  | nil => intro _; rfl
  | cons e rest ih =>
    intro h
    simp only [List.map_cons, List.mem_cons] at h
    push_neg at h
    simp only [lookupC]
    rw [if_neg (fun he => h.1 he.symm)]
    exact ih h.2

theorem removeAll_keys_sublist (l : Clients) (ds : List String) :
    ((removeAll l ds).map Prod.fst).Sublist (l.map Prod.fst) :=
  (List.filter_sublist l).map Prod.fst

theorem removeAll_cons_of_not_mem {a : String} {l : Clients}
    (h : a ∉ l.map Prod.fst) (ds : List String) :
    removeAll l (a :: ds) = removeAll l ds := by
  unfold removeAll
  apply List.filter_congr
  intro e he
  have hne : e.1 ≠ a := fun heq => h (heq ▸ List.mem_map_of_mem Prod.fst he)
  apply decide_eq_decide.mpr
  simp [List.mem_cons, hne]

theorem keys_broadcastCore_sublist (logAll : Bool) (log : LogMessage) (l : Clients) :
    ((broadcastCore logAll log l).map Prod.fst).Sublist (l.map Prod.fst) := by
  have h := removeAll_keys_sublist (deliverPass logAll log l).1 (deliverPass logAll log l).2
  rw [keys_deliverPass] at h
  exact h

theorem lookupC_removeAll_eq_none {cid : String} {l : Clients}
    (h : cid ∉ l.map Prod.fst) (ds : List String) :
    lookupC (removeAll l ds) cid = none :=
  lookupC_eq_none (fun hm => h ((removeAll_keys_sublist l ds).subset hm))

theorem removeAll_cons_keep {e : String × Channel} {l : Clients} {ds : List String}
    (h : e.1 ∉ ds) : removeAll (e :: l) ds = e :: removeAll l ds := by
  simp [removeAll, List.filter_cons, h]

theorem removeAll_cons_drop {e : String × Channel} {l : Clients} {ds : List String}
    (h : e.1 ∈ ds) : removeAll (e :: l) ds = removeAll l ds := by
  simp [removeAll, List.filter_cons, h]

theorem deliverPass_cons (logAll : Bool) (log : LogMessage) (e : String × Channel)
    (rest : Clients) :
    deliverPass logAll log (e :: rest) =
      ((deliverEntry logAll log e).1 :: (deliverPass logAll log rest).1,
       if (deliverEntry logAll log e).2 then e.1 :: (deliverPass logAll log rest).2
       else (deliverPass logAll log rest).2) := rfl

theorem deliverEntry_send {logAll : Bool} {log : LogMessage} {e : String × Channel}
    (h : shouldSend logAll log e.1 = true) :
    deliverEntry logAll log e = ((e.1, (send e.2 log).1), !(send e.2 log).2) := by
  simp [deliverEntry, h]

theorem deliverEntry_skip {logAll : Bool} {log : LogMessage} {e : String × Channel}
    (h : shouldSend logAll log e.1 = false) :
    deliverEntry logAll log e = (e, false) := by
  simp [deliverEntry, h]

theorem send_alive {ch : Channel} {log : LogMessage} (h : ch.alive = true) :
    send ch log = ({ alive := true, queue := ch.queue ++ [log] }, true) := by
  simp [send, h]

theorem send_dead {ch : Channel} {log : LogMessage} (h : ch.alive = false) :
    send ch log = (ch, false) := by
  simp [send, h]

theorem lookupC_cons_self {a : String} {ch : Channel} {l : Clients} :
    lookupC ((a, ch) :: l) a = some ch := by
  simp [lookupC]

theorem lookupC_cons_ne {a cid : String} {ch : Channel} {l : Clients} (h : a ≠ cid) :
    lookupC ((a, ch) :: l) cid = lookupC l cid := by
  simp [lookupC, h]

theorem lookupC_broadcastCore (logAll : Bool) (log : LogMessage) :
    ∀ clients : Clients, keysNodup clients → ∀ cid : String,
      lookupC (broadcastCore logAll log clients) cid =
        (lookupC clients cid).bind (fun ch =>
          if shouldSend logAll log cid then
            if ch.alive then some { alive := true, queue := ch.queue ++ [log] }
            else none
          else some ch) := by
  intro clients
  induction clients with
  | nil => intro _ cid; rfl
  | cons e rest ih =>
    intro hnd cid
    obtain ⟨a, cha⟩ := e
    simp only [keysNodup, List.map_cons, List.nodup_cons] at hnd
    have ha : a ∉ rest.map Prod.fst := hnd.1
    have hndr : keysNodup rest := hnd.2
    have haP : a ∉ ((deliverPass logAll log rest).1).map Prod.fst := by
      rw [keys_deliverPass]; exact ha
    have haD : a ∉ (deliverPass logAll log rest).2 :=
      fun hm => ha (dead_subset logAll log rest a hm)
    have hcore : removeAll (deliverPass logAll log rest).1 (deliverPass logAll log rest).2
        = broadcastCore logAll log rest := rfl
    by_cases hs : shouldSend logAll log a = true
    · by_cases hal : cha.alive = true
      · have hde : deliverEntry logAll log (a, cha)
            = ((a, { alive := true, queue := cha.queue ++ [log] }), false) := by
          rw [deliverEntry_send hs, send_alive hal]; rfl
        rw [show broadcastCore logAll log ((a, cha) :: rest)
            = removeAll (deliverPass logAll log ((a, cha) :: rest)).1
                (deliverPass logAll log ((a, cha) :: rest)).2 from rfl,
          deliverPass_cons, hde]
        simp only [Bool.false_eq_true, if_false]
        rw [removeAll_cons_keep haD, hcore]
        by_cases hc : a = cid
        · subst hc
          rw [lookupC_cons_self, lookupC_cons_self]
          simp [hs, hal]
        · rw [lookupC_cons_ne hc, lookupC_cons_ne hc, ih hndr cid]
      · have hal' : cha.alive = false := by
          cases h : cha.alive
          · rfl
          · exact absurd h hal
        have hde : deliverEntry logAll log (a, cha) = ((a, cha), true) := by
          rw [deliverEntry_send hs, send_dead hal']; rfl
        rw [show broadcastCore logAll log ((a, cha) :: rest)
            = removeAll (deliverPass logAll log ((a, cha) :: rest)).1
                (deliverPass logAll log ((a, cha) :: rest)).2 from rfl,
          deliverPass_cons, hde]
        simp only [if_true]
        rw [removeAll_cons_drop (List.mem_cons_self a _),
          removeAll_cons_of_not_mem haP, hcore]
        by_cases hc : a = cid
        · subst hc
          rw [lookupC_eq_none (fun hm =>
            ha ((keys_broadcastCore_sublist logAll log rest).subset hm)),
            lookupC_cons_self]
          simp [hs, hal']
        · rw [lookupC_cons_ne hc, ih hndr cid]
    · have hs' : shouldSend logAll log a = false := by
        cases h : shouldSend logAll log a
        · rfl
        · exact absurd h hs
      have hde : deliverEntry logAll log (a, cha) = ((a, cha), false) :=
        deliverEntry_skip hs'
      rw [show broadcastCore logAll log ((a, cha) :: rest)
          = removeAll (deliverPass logAll log ((a, cha) :: rest)).1
              (deliverPass logAll log ((a, cha) :: rest)).2 from rfl,
        deliverPass_cons, hde]
      simp only [Bool.false_eq_true, if_false]
      rw [removeAll_cons_keep haD, hcore]
      by_cases hc : a = cid
      · subst hc
        rw [lookupC_cons_self, lookupC_cons_self]
        simp [hs']
      · rw [lookupC_cons_ne hc, lookupC_cons_ne hc, ih hndr cid]

theorem deliverPass_eq_self (logAll : Bool) (log : LogMessage) :
    ∀ l : Clients, (∀ e ∈ l, shouldSend logAll log e.1 = false) →
      deliverPass logAll log l = (l, []) := by
  intro l
  induction l with
  | nil => intro _; rfl
  | cons e rest ih =>
    intro h
    have he : shouldSend logAll log e.1 = false := h e (List.mem_cons_self e rest)
    have hr := ih (fun x hx => h x (List.mem_cons_of_mem e hx))
    rw [deliverPass_cons, deliverEntry_skip he, hr]
    rfl

theorem removeAll_nil_dead (l : Clients) : removeAll l [] = l := by
  simp [removeAll]

theorem broadcastCore_eq_self {logAll : Bool} {log : LogMessage} {l : Clients}
    (h : ∀ e ∈ l, shouldSend logAll log e.1 = false) :
    broadcastCore logAll log l = l := by
  show removeAll (deliverPass logAll log l).1 (deliverPass logAll log l).2 = l
  rw [deliverPass_eq_self logAll log l h]
  exact removeAll_nil_dead l

theorem keysNodup_broadcastCore {logAll : Bool} {log : LogMessage} {l : Clients}
    (h : keysNodup l) : keysNodup (broadcastCore logAll log l) :=
  (keys_broadcastCore_sublist logAll log l).nodup h

theorem keys_filter_ne_not_mem (l : Clients) (cid : String) :
    cid ∉ (l.filter (fun e => decide (e.1 ≠ cid))).map Prod.fst := by
  intro hm
  obtain ⟨e, he, heq⟩ := List.mem_map.mp hm
  have hd := List.of_mem_filter he
  exact (of_decide_eq_true hd) heq

theorem keysNodup_register {l : Clients} (h : keysNodup l) (cid : String) (ch : Channel) :
    keysNodup (register l cid ch) := by
  simp only [register, keysNodup, List.map_cons, List.nodup_cons]
  exact ⟨keys_filter_ne_not_mem l cid, ((List.filter_sublist l).map Prod.fst).nodup h⟩

theorem keysNodup_unregister {l : Clients} (h : keysNodup l) (cid : String) :
    keysNodup (unregister l cid) :=
  ((List.filter_sublist l).map Prod.fst).nodup h

theorem keysNodup_applyOp {l : Clients} (h : keysNodup l) (op : RegOp) :
    keysNodup (applyOp l op) := by
  cases op with
  | register cid ch => exact keysNodup_register h cid ch
  | unregister cid => exact keysNodup_unregister h cid

theorem keysNodup_applyOps (ops : List RegOp) :
    ∀ {l : Clients}, keysNodup l → keysNodup (applyOps l ops) := by
  induction ops with
  | nil => intro l h; exact h
  | cons op rest ih =>
    intro l h
    exact ih (keysNodup_applyOp h op)

theorem lookupC_register_self (l : Clients) (cid : String) (ch : Channel) :
    lookupC (register l cid ch) cid = some ch := by
  simp [register, lookupC]

theorem countKey_eq_zero {l : Clients} {cid : String} (h : cid ∉ l.map Prod.fst) :
    countKey l cid = 0 := by
  induction l with
  | nil => rfl
  | cons e rest ih =>
    simp only [List.map_cons, List.mem_cons] at h
    push_neg at h
    simp only [countKey, List.filter_cons]
    have : decide (e.1 = cid) = false := by
      apply decide_eq_false
      exact fun heq => h.1 heq.symm
    rw [this]
    simp only [Bool.false_eq_true, if_false]
    exact ih h.2

theorem countKey_eq_one {cid : String} {ch : Channel} :
    ∀ {l : Clients}, keysNodup l → lookupC l cid = some ch → countKey l cid = 1 := by
  intro l
  induction l with
  | nil => intro _ h; cases h
  | cons e rest ih =>
    intro hnd h
    simp only [keysNodup, List.map_cons, List.nodup_cons] at hnd
    by_cases hc : e.1 = cid
    · have h0 : countKey rest cid = 0 := countKey_eq_zero (hc ▸ hnd.1)
      simp only [countKey, List.filter_cons, decide_eq_true hc, if_true, List.length_cons]
      have h1 : (rest.filter (fun e => decide (e.1 = cid))).length = 0 := h0
      omega
    · have h' : lookupC rest cid = some ch := by
        simpa [lookupC, hc] using h
      simp only [countKey, List.filter_cons]
      have : decide (e.1 = cid) = false := decide_eq_false hc
      rw [this]
      simp only [Bool.false_eq_true, if_false]
      exact ih hnd.2 h'

theorem gate_false_of {logAll : Bool} {log : LogMessage}
    (h : (logAll || !is_internal_message log) = true) :
    (!logAll && is_internal_message log) = false := by
  cases hA : logAll <;> cases hI : is_internal_message log <;> simp_all

theorem broadcast_log_eq_core {logAll : Bool} {log : LogMessage} (clients : Clients)
    (h : (!logAll && is_internal_message log) = false) :
    broadcast_log logAll log clients = broadcastCore logAll log clients := by
  simp [broadcast_log, h]

theorem connectLoop_alwaysFail (base : ℚ) :
    ∀ (remaining attempt : Nat) (delays : List ℚ),
      connectLoop base alwaysFail remaining attempt delays =
        RetryResult.err (attempt + remaining + 1)
          (delays ++ (List.range' (attempt + 1) remaining).map
            (fun n => base * (3 / 2) ^ n)) := by
  intro remaining
  induction remaining with
  | zero =>
    intro attempt delays
    simp [connectLoop, alwaysFail]
  | succ k ih =>
    intro attempt delays
    rw [show connectLoop base alwaysFail (k + 1) attempt delays
        = connectLoop base alwaysFail k (attempt + 1)
            (delays ++ [base * (3 / 2) ^ (attempt + 1)]) by simp [connectLoop, alwaysFail],
      ih (attempt + 1) (delays ++ [base * (3 / 2) ^ (attempt + 1)])]
    rw [List.range'_succ]
    simp only [List.map_cons, List.append_assoc, List.cons_append, List.nil_append]
    congr 1
    omega

theorem countKey_register_self (l : Clients) (cid : String) (ch : Channel) :
    countKey (register l cid ch) cid = 1 := by
  have h0 : countKey (l.filter (fun e => decide (e.1 ≠ cid))) cid = 0 :=
    countKey_eq_zero (keys_filter_ne_not_mem l cid)
  simp only [countKey, register, List.filter_cons] at h0 ⊢
  rw [if_pos (by simp)]
  simp only [List.length_cons]
  omega

/-! Theorems for the claims. -/

/-- C1: on a message whose `target_client_id` is set, `broadcast_log`
delivers to at most one live subscriber and to no other: (i) any client
whose queue grows by the message is exactly the target id (with the
registry key-uniqueness invariant, at most one entry carries that key);
(ii) when no registry entry matches the target, the registry — and hence
every channel queue — is returned unchanged: the message is silently
dropped, and `broadcast_log`, being a total function into the registry
state, raises no error; (iii) when the matching entry is present, live, and
the internal-message gate does not fire, the message is delivered to it. -/
theorem broadcast_targeted (logAll : Bool) (log : LogMessage) (clients : Clients)
    (t : String) (hnd : keysNodup clients) (ht : log.target_client_id = some t) :
    (∀ cid : String,
      deliveredTo clients (broadcast_log logAll log clients) cid log → cid = t)
    ∧ ((∀ e ∈ clients, e.1 ≠ t) → broadcast_log logAll log clients = clients)
    ∧ (∀ ch : Channel, lookupC clients t = some ch → ch.alive = true →
        (!logAll && is_internal_message log) = false →
        lookupC (broadcast_log logAll log clients) t
          = some { alive := true, queue := ch.queue ++ [log] }) := by
  have hqueue : ∀ ch : Channel, ch.queue = ch.queue ++ [log] → False := by
    intro ch h
    have := congrArg List.length h
    simp at this
  refine ⟨?_, ?_, ?_⟩
  · intro cid hdel
    obtain ⟨ch, ch2, h1, h2, h3⟩ := hdel
    by_cases hgate : (!logAll && is_internal_message log) = true
    · rw [show broadcast_log logAll log clients = clients by simp [broadcast_log, hgate]] at h2
      rw [h1] at h2
      injection h2 with h2
      rw [← h2] at h3
      exact absurd h3 (hqueue ch)
    · have hgate' : (!logAll && is_internal_message log) = false := by
        cases h : (!logAll && is_internal_message log)
        · rfl
        · exact absurd h hgate
      rw [broadcast_log_eq_core clients hgate',
        lookupC_broadcastCore logAll log clients hnd cid, h1] at h2
      by_cases hss : shouldSend logAll log cid = true
      · have : decide (t = cid) = true := by
          rw [← hss]; simp [shouldSend, ht]
        exact (of_decide_eq_true this).symm
      · have hss' : shouldSend logAll log cid = false := by
          cases h : shouldSend logAll log cid
          · rfl
          · exact absurd h hss
        rw [hss'] at h2
        simp only [Bool.false_eq_true, if_false, Option.bind_some] at h2
        injection h2 with h2
        rw [← h2] at h3
        exact absurd h3 (hqueue ch)
  · intro hno
    have hss : ∀ e ∈ clients, shouldSend logAll log e.1 = false := by
      intro e he
      simp only [shouldSend, ht]
      exact decide_eq_false (fun heq => hno e he heq.symm)
    by_cases hgate : (!logAll && is_internal_message log) = true
    · simp [broadcast_log, hgate]
    · have hgate' : (!logAll && is_internal_message log) = false := by
        cases h : (!logAll && is_internal_message log)
        · rfl
        · exact absurd h hgate
      rw [broadcast_log_eq_core clients hgate']
      exact broadcastCore_eq_self hss
  · intro ch hlk hal hgate
    rw [broadcast_log_eq_core clients hgate,
      lookupC_broadcastCore logAll log clients hnd t, hlk]
    have hss : shouldSend logAll log t = true := by simp [shouldSend, ht]
    simp [hss, hal]

/-- C1 witness: a registry holding only client `"b"` is left unchanged by a
broadcast targeted at the unregistered id `"a"`. -/
theorem broadcast_targeted_witness :
    broadcast_log false msgTargetA [("b", aliveCh)] = [("b", aliveCh)] :=
  (broadcast_targeted false msgTargetA [("b", aliveCh)] "a"
    (by unfold keysNodup; decide) rfl).2.1 (by decide)

/-- C2 counterexample: the acknowledgement synthesized for a web client is
not addressed via `target_client_id` — the source sets that field to `None`
(`src/server_build.rs:293`) — and consequently another registered
subscriber (`"B"`) receives it when client `"A"` subscribes: the claim that
only the caller receives the acknowledgement is false. -/
theorem subscribe_ack_cex :
    (testMessage "A" "t0").target_client_id = none
    ∧ lookupC (subscribe_to_logs false [("B", aliveCh)] "A" ClientType.webClient "t0") "B"
        = some { alive := true, queue := [testMessage "A" "t0"] } :=
  ⟨rfl, by decide⟩

/-- C2 amended: for `client_type = WebClient` the subscription handler
synthesizes exactly one acknowledgement `LogMessage` and hands it to
`broadcast_log`, but with `target_client_id = None`, so it is subject to
ordinary broadcast delivery to every live subscriber rather than being
addressed to the caller only; for `Server` and `Unknown` no acknowledgement
is sent (the handler only registers the fresh channel). -/
theorem subscribe_ack (logAll : Bool) (clients : Clients) (cid now : String) :
    (subscribe_to_logs logAll clients cid ClientType.webClient now
      = broadcast_log logAll (testMessage cid now) (register clients cid freshChannel))
    ∧ (testMessage cid now).target_client_id = none
    ∧ (∀ ct : ClientType, ct ≠ ClientType.webClient →
        subscribe_to_logs logAll clients cid ct now
          = register clients cid freshChannel) := by
  refine ⟨rfl, rfl, ?_⟩
  intro ct hct
  cases ct with
  | server => rfl
  | webClient => exact absurd rfl hct
  | unknown => rfl

/-- C2 witness: a `Server`-type subscription only registers the channel. -/
theorem subscribe_ack_witness :
    subscribe_to_logs false [] "s" ClientType.server "t0"
      = register [] "s" freshChannel :=
  (subscribe_ack false [] "s" "t0").2.2 ClientType.server (by decide)

/-- C3 counterexample: after the full subscription lifecycle — the one
registration `subscribe_to_logs` performs plus the (empty) registry effect
of the stream-termination path — the client's entry is still present in the
registry, contradicting the claim that termination removes it via
`unregister`. -/
theorem subscribe_no_unregister_cex :
    lookupC (applyOps [] (subscriptionRegOps "c1" ++ streamTerminationRegOps "c1")) "c1"
      = some freshChannel
    ∧ some freshChannel ≠ (none : Option Channel) :=
  ⟨by decide, by simp⟩

/-- C3 amended: the protocol layer performs no registry removal when a
stream terminates — the termination path contributes no registry operation
and the subscription path contains no `unregister` — and a subscriber's
entry is instead removed lazily: the next `broadcast_log` whose delivery
pass attempts a send to the dead channel (and whose internal-message gate
does not fire) removes that entry in its cleanup pass. -/
theorem subscribe_lazy_cleanup :
    (∀ cid : String, streamTerminationRegOps cid = []
      ∧ ∀ op ∈ subscriptionRegOps cid, ∀ c : String, op ≠ RegOp.unregister c)
    ∧ (∀ (clients : Clients) (cid : String) (ch : Channel) (logAll : Bool)
        (log : LogMessage),
        keysNodup clients → lookupC clients cid = some ch → ch.alive = false →
        shouldSend logAll log cid = true →
        (!logAll && is_internal_message log) = false →
        lookupC (broadcast_log logAll log clients) cid = none) := by
  constructor
  · intro cid
    refine ⟨rfl, ?_⟩
    intro op hop c
    simp only [subscriptionRegOps, List.mem_singleton] at hop
    subst hop
    intro h
    cases h
  · intro clients cid ch logAll log hnd hlk hal hss hgate
    rw [broadcast_log_eq_core clients hgate,
      lookupC_broadcastCore logAll log clients hnd cid, hlk]
    simp [hss, hal]

/-- C3 witness: a dead subscriber `"c1"` is removed by the next untargeted
broadcast of a non-internal message. -/
theorem subscribe_lazy_cleanup_witness :
    lookupC (broadcast_log false plainMsg [("c1", deadCh)]) "c1" = none :=
  subscribe_lazy_cleanup.2 [("c1", deadCh)] "c1" deadCh false plainMsg
    (by unfold keysNodup; decide) (by decide) rfl (by decide) (by decide)

/-- C4 counterexample: `broadcast_log_filtered` performs no internal-message
check — an internal message (target `h2::client`) is delivered to the named
subscriber's channel even though `log_all_messages` plays no role in that
code path at all, contradicting the claim that no subscriber channel ever
receives an internal message when `log_all_messages = false`. -/
theorem filtered_internal_cex :
    is_internal_message internalMsg = true
    ∧ broadcast_log_filtered [("c", aliveCh)] internalMsg "c"
        = [("c", { alive := true, queue := [internalMsg] })] :=
  ⟨by decide, by decide⟩

/-- C4 amended: with `log_all_messages = false`, `broadcast_log` checks
`is_internal_message` before any delivery decision and returns with the
registry (hence every channel) untouched for an internal message; the
guarantee is specific to `broadcast_log` — `broadcast_log_filtered`
performs no internal-message check. -/
theorem broadcast_drops_internal (log : LogMessage) (clients : Clients)
    (h : is_internal_message log = true) :
    broadcast_log false log clients = clients := by
  simp [broadcast_log, h]

/-- C4 witness: an internal message leaves a live registry untouched. -/
theorem broadcast_drops_internal_witness :
    broadcast_log false internalMsg [("c", aliveCh)] = [("c", aliveCh)] :=
  broadcast_drops_internal internalMsg [("c", aliveCh)] (by decide)

/-- C5: outcome of one `broadcast_log` call for each registry entry, given
the key-uniqueness invariant and a call whose internal-message gate does not
fire. An entry the delivery pass attempts whose send fails (receiver gone)
is removed by the second, separately-locked cleanup pass; an entry whose
send succeeds stays registered with the message enqueued; an entry the pass
does not attempt stays registered untouched. The characterization depends
only on the entry's own channel, so one subscriber's failure cannot prevent
delivery to any other subscriber; and `broadcast_log` is a total function
into the new registry state, so the failure is never surfaced to its
caller. -/
theorem broadcast_reap (logAll : Bool) (log : LogMessage) (clients : Clients)
    (cid : String) (ch : Channel) (hnd : keysNodup clients)
    (hgate : (!logAll && is_internal_message log) = false)
    (hlk : lookupC clients cid = some ch) :
    (shouldSend logAll log cid = true → ch.alive = false →
      lookupC (broadcast_log logAll log clients) cid = none)
    ∧ (shouldSend logAll log cid = true → ch.alive = true →
      lookupC (broadcast_log logAll log clients) cid
        = some { alive := true, queue := ch.queue ++ [log] })
    ∧ (shouldSend logAll log cid = false →
      lookupC (broadcast_log logAll log clients) cid = some ch) := by
  have hrw : lookupC (broadcast_log logAll log clients) cid
      = (some ch).bind (fun ch => if shouldSend logAll log cid then
          (if ch.alive then some { alive := true, queue := ch.queue ++ [log] }
           else none) else some ch) := by
    rw [broadcast_log_eq_core clients hgate,
      lookupC_broadcastCore logAll log clients hnd cid, hlk]
  refine ⟨?_, ?_, ?_⟩
  · intro hss hal
    rw [hrw]
    simp [hss, hal]
  · intro hss hal
    rw [hrw]
    simp [hss, hal]
  · intro hss
    rw [hrw]
    simp [hss]

/-- C5 witness: in a registry holding the dead subscriber `"a"` and the
live subscriber `"b"`, an untargeted non-internal broadcast removes `"a"`. -/
theorem broadcast_reap_witness :
    lookupC (broadcast_log false plainMsg [("a", deadCh), ("b", aliveCh)]) "a" = none :=
  (broadcast_reap false plainMsg [("a", deadCh), ("b", aliveCh)] "a" deadCh
    (by unfold keysNodup; decide) (by decide) (by decide)).1 (by decide) rfl

/-- C6: the registry holds at most one entry per `client_id` after any
sequence of register/unregister operations (keys stay pairwise distinct);
registering an id that is already present replaces the previous entry, so
the id's lookup yields the new channel and exactly one entry carries the
id; and after two registrations under the same id, an untargeted broadcast
that passes the noise filter delivers to exactly one live channel for that
id — the one from the latest registration. -/
theorem registry_last_connect_wins :
    (∀ ops : List RegOp, keysNodup (applyOps [] ops))
    ∧ (∀ (clients : Clients) (cid : String) (ch : Channel),
        lookupC (register clients cid ch) cid = some ch
        ∧ countKey (register clients cid ch) cid = 1)
    ∧ (∀ (clients : Clients) (cid : String) (ch1 ch2 : Channel) (logAll : Bool)
        (log : LogMessage),
        keysNodup clients → log.target_client_id = none →
        (logAll || !is_internal_message log) = true → ch2.alive = true →
        lookupC (broadcast_log logAll log
            (register (register clients cid ch1) cid ch2)) cid
          = some { alive := true, queue := ch2.queue ++ [log] }
        ∧ countKey (broadcast_log logAll log
            (register (register clients cid ch1) cid ch2)) cid = 1) := by
  refine ⟨?_, ?_, ?_⟩
  · intro ops
    exact keysNodup_applyOps ops (by simp [keysNodup])
  · intro clients cid ch
    exact ⟨lookupC_register_self clients cid ch, countKey_register_self clients cid ch⟩
  · intro clients cid ch1 ch2 logAll log hnd htarget hfilter hal2
    have hnd2 : keysNodup (register (register clients cid ch1) cid ch2) :=
      keysNodup_register (keysNodup_register hnd cid ch1) cid ch2
    have hgate : (!logAll && is_internal_message log) = false := gate_false_of hfilter
    have hss : shouldSend logAll log cid = true := by
      simp only [shouldSend, htarget]
      exact hfilter
    have hlk2 : lookupC (register (register clients cid ch1) cid ch2) cid = some ch2 :=
      lookupC_register_self (register clients cid ch1) cid ch2
    have hres : lookupC (broadcast_log logAll log
        (register (register clients cid ch1) cid ch2)) cid
        = some { alive := true, queue := ch2.queue ++ [log] } := by
      rw [broadcast_log_eq_core _ hgate,
        lookupC_broadcastCore logAll log _ hnd2 cid, hlk2]
      simp [hss, hal2]
    refine ⟨hres, ?_⟩
    have hndres : keysNodup (broadcast_log logAll log
        (register (register clients cid ch1) cid ch2)) := by
      rw [broadcast_log_eq_core _ hgate]
      exact keysNodup_broadcastCore hnd2
    exact countKey_eq_one hndres hres

/-- C6 witness: two registrations as `"s1"` followed by a broadcast of a
plain message deliver exactly one copy, into the second channel. -/
theorem registry_last_connect_wins_witness :
    lookupC (broadcast_log false plainMsg
        (register (register [] "s1" aliveCh) "s1" aliveCh)) "s1"
      = some { alive := true, queue := [plainMsg] } :=
  (registry_last_connect_wins.2.2 [] "s1" aliveCh aliveCh false plainMsg
    (by unfold keysNodup; decide) rfl (by decide) rfl).1

/-- C7 counterexample: with `max_retries = 1` against an endpoint that
always fails, the loop does not stop after one consecutive failure — it
makes a second connection attempt (two attempts in total, with the one
backoff delay `1.5 * base` for `base = 1`), so the claim that the loop
stops after `max_retries` consecutive failures is false: two attempts
exceed the claimed bound of one. -/
theorem connect_retry_cex :
    connect_with_retry 1 1 alwaysFail = RetryResult.err 2 [3 / 2] ∧ ¬(2 ≤ 1) := by
  constructor
  · simp [connect_with_retry, connectLoop, alwaysFail]
  · omega

/-- C7 amended: the delay slept after the `n`-th consecutive connect
failure (`1 ≤ n ≤ max_retries`) is `base_delay * 1.5 ^ n` — for
`base_delay = 1` the delays are `1.5, 2.25, 3.375, ...` — and the loop
stops and returns the last connect error after `max_retries + 1`
consecutive failures, i.e. after the initial attempt plus `max_retries`
retries; no delay follows the final failed attempt. -/
theorem connect_retry_exhaustion (max_retries : Nat) (base : ℚ) :
    connect_with_retry max_retries base alwaysFail =
      RetryResult.err (max_retries + 1)
        ((List.range' 1 max_retries).map (fun n => base * (3 / 2) ^ n)) := by
  unfold connect_with_retry
  rw [connectLoop_alwaysFail base max_retries 0 []]
  simp

/-- C8: `is_internal_message` returns `true` if and only if the message's
`target` is present and starts with one of the fixed transport-namespace
prefixes, or the message text contains one of the fixed transport-chatter
substrings; consequently a message with an absent target whose text
contains none of the substrings is not internal. -/
theorem is_internal_iff (log : LogMessage) :
    (is_internal_message log = true ↔
      (∃ t, log.target = some t
        ∧ ∃ p ∈ INTERNAL_PREFIXES, strStartsWith t p = true)
      ∨ (∃ p ∈ INTERNAL_PATTERNS, strContains log.message p = true))
    ∧ (log.target = none →
        (∀ p ∈ INTERNAL_PATTERNS, strContains log.message p = false) →
        is_internal_message log = false) := by
  constructor
  · unfold is_internal_message
    cases htarget : log.target with
    | none => simp [List.any_eq_true]
    | some t => simp [List.any_eq_true]
  · intro h1 h2
    unfold is_internal_message
    rw [h1]
    simp only [Bool.false_or, List.any_eq_false]
    intro p hp
    simp [h2 p hp]

/-- C8 witness: a message with no target and the text `"hello"` is not
internal. -/
theorem is_internal_iff_witness : is_internal_message plainMsg = false :=
  (is_internal_iff plainMsg).2 rfl (by decide)

/-- C9: for every raw event and every field-inclusion configuration, the
`LogMessage` the adapter constructs has each of the five optional fields
`timestamp`, `target`, `thread_id`, `file`, `line` present exactly when the
corresponding inclusion flag is enabled — a disabled field is `none`, never
an empty-but-present string — and `mkLogMessage` is a total function, so
the mapping raises no error. -/
theorem adapter_fields (cfg : LogFieldsConfig) (server_id : Option String)
    (e : RawEvent) :
    (mkLogMessage cfg server_id e).timestamp.isSome = cfg.include_timestamp
    ∧ (mkLogMessage cfg server_id e).target.isSome = cfg.include_target
    ∧ (mkLogMessage cfg server_id e).thread_id.isSome = cfg.include_thread_id
    ∧ (mkLogMessage cfg server_id e).file.isSome = cfg.include_file
    ∧ (mkLogMessage cfg server_id e).line.isSome = cfg.include_line := by
  refine ⟨?_, ?_, ?_, ?_, ?_⟩
  · cases h : cfg.include_timestamp <;> simp [mkLogMessage, h]
  · cases h : cfg.include_target <;> simp [mkLogMessage, h]
  · cases h : cfg.include_thread_id <;> simp [mkLogMessage, h]
  · cases h : cfg.include_file <;> simp [mkLogMessage, h]
  · cases h : cfg.include_line <;> simp [mkLogMessage, h]

/-- C10: an event whose rendered message is empty or whitespace-only is
dropped by `on_event` before a `LogMessage` is constructed: the layer
returns without choosing any broadcast route, so no broadcast is initiated
and no subscriber can observe the event — independently of the
`log_all_messages` setting, which this code path never consults. -/
theorem on_event_drops_empty (cfg : LogFieldsConfig) (server_id : Option String)
    (e : RawEvent) (h : trimIsEmpty e.message = true) :
    on_event cfg server_id e = none := by
  simp [on_event, h, GRPC_LAYER_INTERNAL_PREFIXES]

/-- C10 witness: an event whose message is two spaces is dropped. -/
theorem on_event_drops_empty_witness : on_event fullCfg none wsEvent = none :=
  on_event_drops_empty fullCfg none wsEvent (by decide)

end GrpcLogger
